import Mathlib

/-!
Verification development for the `useArbTokenBridge` hook of
`Crypto-One-dev/arb-token-bridge` (file `src/hooks/useArbTokenBridge.ts`).

The hook is shallowly embedded as pure Lean functions over an explicit
engine state.  Each React `useState` piece becomes a field of
`EngineState`; each `useCallback` operation becomes a function from a
`Ledger` (the external provider/inbox-manager/contract reads), the
resolved identity (`walletAddress`, `vmId`), and an `EngineState` to a
result.  JavaScript objects keyed by contract address become association
lists `List (String × _)` with unique keys (JS objects cannot hold
duplicate keys); `lodash.isequal` on such objects becomes the key-wise
comparison `storEq`; object spread merge becomes `mergeStor`.
`ethers.utils.BigNumber` values (non-negative) become `Nat`; ERC721
token-id arrays become `List Nat` (lodash compares arrays positionally,
so list equality is the faithful comparison).

A `throw` in the source becomes `Except.error`; in every operation all
throws occur before any `set*` state call, so an `Except.error` result
faithfully means the engine state is unchanged.  Transaction submission
and inclusion (`tx = await ...; await tx.wait()`) is modelled by a
boolean `txOk` input: `true` means the transaction was submitted and
included, `false` means submission or inclusion failed (in the source, a
rejected promise).  The transactions an operation attempts to submit are
returned as a `List TxIntent` so that "performs no ledger submission"
is expressible.

Asynchrony is sequentialized (the spec's concurrency model is a single
logical actor per identity).  One genuinely React-specific behaviour is
kept because it is observable: a callback invocation uses the state
captured by its render closure, so the `updateTokenBalances(type)` call
at the end of `addToken` filters over the token map as it was *before*
the `setBridgeTokens` insert.  `updateTokenBalancesWith` therefore takes
the token map to iterate over as a separate argument.
-/

namespace ArbTokenBridge

deriving instance DecidableEq for Except

/-- `export enum TokenType { ERC20, ERC721 }` from the source. -/
inductive TokenType where
  | erc20
  | erc721
deriving DecidableEq, Repr

/-- `const MIN_APPROVAL = constants.MaxUint256` (the maximal sentinel). -/
def MIN_APPROVAL : Nat := 2 ^ 256 - 1

/-- `interface BridgeBalance` from the source: the four-tier native /
fungible balance snapshot. -/
structure BridgeBalance where
  balance : Nat
  arbChainBalance : Nat
  totalArbBalance : Nat
  lockBoxBalance : Nat
deriving DecidableEq, Repr

/-- `interface ERC721Balance` from the source: the four-tier token-id
lists of a non-fungible asset. -/
structure ERC721Balance where
  tokens : List Nat
  arbChainTokens : List Nat
  totalArbTokens : List Nat
  lockBoxTokens : List Nat
deriving DecidableEq, Repr

/-- Runtime shape of the entries stored in `erc20Balances`: the objects
built in `updateTokenBalances` carry the four balance fields plus an
extra `asset: contract.symbol` field (beyond the declared
`BridgeBalance` type, which the source widens at runtime). -/
structure ERC20BalanceEntry where
  balance : Nat
  arbChainBalance : Nat
  lockBoxBalance : Nat
  totalArbBalance : Nat
  asset : String
deriving DecidableEq, Repr

/-- `type BridgeToken = ERC20BridgeToken | ERC721BridgeToken`: the closed
tagged union held in `bridgeTokens`.  The `arb`/`eth` contract handles
are represented by the address both factories connect to
(`contract.eth.address`). -/
inductive BridgeToken where
  | erc20 (name symbol : String) (allowed : Bool) (units : Nat) (ethAddress : String)
  | erc721 (name symbol : String) (allowed : Bool) (ethAddress : String)
deriving DecidableEq, Repr

namespace BridgeToken

/-- The `type` discriminant of a `BridgeToken`. -/
def tokenKind : BridgeToken → TokenType
  | .erc20 .. => .erc20
  | .erc721 .. => .erc721

/-- The `allowed` field. -/
def allowed : BridgeToken → Bool
  | .erc20 _ _ a _ _ => a
  | .erc721 _ _ a _ => a

/-- The `symbol` field. -/
def symbol : BridgeToken → String
  | .erc20 _ s _ _ _ => s
  | .erc721 _ s _ _ => s

/-- The `eth.address` of the connected home-chain contract. -/
def ethAddress : BridgeToken → String
  | .erc20 _ _ _ _ a => a
  | .erc721 _ _ _ a => a

/-- `{ ...target, allowed: true }` from `approveToken`. -/
def setAllowed : BridgeToken → BridgeToken
  | .erc20 n s _ u a => .erc20 n s true u a
  | .erc721 n s _ a => .erc721 n s true a

end BridgeToken

/-! ### ContractStorage: JS objects keyed by contract address -/

/-- Property lookup on a JS object modelled as an association list. -/
def storGet {T : Type} : List (String × T) → String → Option T
  | [], _ => none
  | (b, v) :: rest, a => if a = b then some v else storGet rest a

/-- `{ ...contracts, [contractAddress]: v }`: overriding spread keeps an
existing key in place and appends a genuinely new key. -/
def storInsert {T : Type} (m : List (String × T)) (a : String) (v : T) :
    List (String × T) :=
  if (storGet m a).isSome then m.map (fun p => if p.1 = a then (a, v) else p)
  else m ++ [(a, v)]

/-- `lodash.isequal` on two JS objects: same key set, deep-equal value at
every key (key order irrelevant). -/
def storEq {T : Type} [DecidableEq T] (m1 m2 : List (String × T)) : Bool :=
  m1.all (fun p => decide (storGet m2 p.1 = some p.2)) &&
  m2.all (fun p => decide (storGet m1 p.1 = some p.2))

/-- `{ ...old, ...nw }`: keys of `old` keep their positions (values
overridden by `nw` where present), then keys only in `nw` follow. -/
def mergeStor {T : Type} (old nw : List (String × T)) : List (String × T) :=
  (old.map fun p =>
    match storGet nw p.1 with
    | some v => (p.1, v)
    | none => p) ++
  nw.filter (fun q => (storGet old q.1).isNone)

/-! ### External collaborators and engine state -/

/-- The external ledger collaborators of the hook: the home/child chain
providers, the global inbox manager, and the per-contract reads, all
resolved and connected (the `arbProvider`/`arbWallet` null checks are
nullability of the identity strings, modelled as emptiness).  Reads are
total (read failure is outside the claims under verification). -/
structure Ledger where
  /-- `arbProvider.provider.getCode(address)`. -/
  getCode : String → String
  /-- `inboxManager.address`. -/
  inboxAddress : String
  /-- `ethWallet.getBalance()`, keyed by the wallet address. -/
  ethBalance : String → Nat
  /-- `arbProvider.getBalance(address)`. -/
  arbEthBalance : String → Nat
  /-- `inboxManager.getEthBalance(key)` (key: vmId or wallet address). -/
  inboxEthBalance : String → Nat
  /-- `ethERC20.allowance(owner, spender)` at a contract. -/
  allowance : String → String → String → Nat
  /-- `ethERC20.name()`. -/
  erc20Name : String → String
  /-- `ethERC20.symbol()`. -/
  erc20Symbol : String → String
  /-- `ethERC20.decimals()`. -/
  decimals : String → Nat
  /-- `ethERC721.name()`. -/
  erc721Name : String → String
  /-- `ethERC721.symbol()`. -/
  erc721Symbol : String → String
  /-- `ethERC721.isApprovedForAll(owner, operator)` at a contract. -/
  isApprovedForAll : String → String → String → Bool
  /-- `contract.eth.balanceOf(owner)` (ERC20, home chain). -/
  balanceOf : String → String → Nat
  /-- `contract.arb.balanceOf(owner)` (ERC20, child chain). -/
  arbBalanceOf : String → String → Nat
  /-- `inboxManager.getERC20Balance(contract, key)`. -/
  inboxERC20Balance : String → String → Nat
  /-- `contract.eth.tokensOfOwner(owner)` (ERC721, home chain). -/
  tokensOfOwner : String → String → List Nat
  /-- `contract.arb.tokensOfOwner(owner)` (ERC721, child chain). -/
  arbTokensOfOwner : String → String → List Nat
  /-- `inboxManager.getERC721Tokens(contract, key)`. -/
  inboxERC721Tokens : String → String → List Nat

/-- The hook's `useState`/`useLocalStorage` pieces. -/
structure EngineState where
  bridgeTokens : List (String × BridgeToken)
  ethBalances : BridgeBalance
  erc20Balances : List (String × ERC20BalanceEntry)
  erc721Balances : List (String × ERC721Balance)
  erc20Cache : List String
  erc721Cache : List String
deriving DecidableEq, Repr

/-- Initial hook state: empty maps, zero native balances, caches as
loaded from local storage. -/
def initialState (c20 c721 : List String) : EngineState :=
  { bridgeTokens := []
    ethBalances := { balance := 0, arbChainBalance := 0, totalArbBalance := 0, lockBoxBalance := 0 }
    erc20Balances := []
    erc721Balances := []
    erc20Cache := c20
    erc721Cache := c721 }

/-- Typed rendering of the `throw new Error(...)` sites of the hook. -/
inductive BridgeError where
  /-- The `!arbProvider || !walletAddress`-style guards (message kept). -/
  | missingReq (msg : String)
  /-- `Error('address is not a contract')` in `addToken`. -/
  | notAContract
  /-- `Error('contract is present')` in `addToken`. -/
  | alreadyRegistered
  /-- `Error('contract not present')` in the token operations. -/
  | contractNotPresent (addr : String)
  /-- `Error('withdrawLockbox tokenId not present ...')`. -/
  | missingTokenId (addr : String)
  /-- A rejected transaction submission / inclusion wait. -/
  | txFailed
deriving DecidableEq, Repr

/-- Transactions the engine hands to the ledger for submission. -/
inductive TxIntent where
  | depositETH (dest : String) (wei : Nat)
  | withdrawEthFromChain (wei : Nat)
  | withdrawEthLockbox
  | approveERC20 (contract spender : String) (amount : Nat)
  | setApprovalForAll (contract operator_ : String) (flag : Bool)
  /-- `depositERC20(dest, contract, parseUnits(amount, units))`; the
  amount string and the decimals it is parsed at are recorded as given
  (decimal-string parsing is external formatting). -/
  | depositERC20 (dest contract : String) (amount : String) (units : Nat)
  | depositERC721 (dest contract tokenId : String)
  /-- `contract.arb.withdraw(dest, amountOrTokenId)` on the child chain. -/
  | childWithdraw (contract dest amountOrTokenId : String)
  | withdrawERC20 (contract : String)
  | withdrawERC721 (contract tokenId : String)
deriving DecidableEq, Repr

/-! ### ETH methods -/

/-- The `update` object built by `updateEthBalances` from its four
ledger reads. -/
def ethUpdateOf (L : Ledger) (walletAddress vmId : String) : BridgeBalance :=
  { balance := L.ethBalance walletAddress
    arbChainBalance := L.arbEthBalance walletAddress
    lockBoxBalance := L.inboxEthBalance walletAddress
    totalArbBalance := L.inboxEthBalance vmId }

/-- `updateEthBalances`: reads the four native tiers and publishes the
snapshot only when it is not deep-equal to the current one (the loop
computing `different` in the source is dead and not reproduced).  The
returned `Bool` records whether `setEthBalances` was called. -/
def updateEthBalances (L : Ledger) (walletAddress vmId : String)
    (s : EngineState) : Except BridgeError (EngineState × Bool) :=
  if vmId = "" ∨ walletAddress = "" then
    .error (.missingReq "updateEthBalances no arb provider")
  else
    let update := ethUpdateOf L walletAddress vmId
    if s.ethBalances = update then .ok (s, false)
    else .ok ({ s with ethBalances := update }, true)

/-- `depositEth`: submits `depositETH(walletAddress, weiValue)` and waits
for inclusion, then refreshes the native balances — the whole body is in
a `try` whose `catch` only logs, so a failure of submission, inclusion,
or refresh leaves the caller with a normally-resolved call. -/
def depositEth (L : Ledger) (walletAddress vmId : String) (txOk : Bool)
    (weiValue : Nat) (s : EngineState) :
    Except BridgeError EngineState × List TxIntent :=
  if walletAddress = "" then (.error (.missingReq "depositEth no arb wallet"), [])
  else if txOk then
    match updateEthBalances L walletAddress vmId s with
    | .ok (s', _) => (.ok s', [.depositETH walletAddress weiValue])
    | .error _ => (.ok s, [.depositETH walletAddress weiValue])
  else (.ok s, [.depositETH walletAddress weiValue])

/-- `withdrawEth`: like `depositEth`, a `try`/`catch` that only logs. -/
def withdrawEth (L : Ledger) (walletAddress vmId : String) (txOk : Bool)
    (weiValue : Nat) (s : EngineState) :
    Except BridgeError EngineState × List TxIntent :=
  if txOk then
    match updateEthBalances L walletAddress vmId s with
    | .ok (s', _) => (.ok s', [.withdrawEthFromChain weiValue])
    | .error _ => (.ok s, [.withdrawEthFromChain weiValue])
  else (.ok s, [.withdrawEthFromChain weiValue])

/-- `withdrawLockboxETH`: submits `inboxManager.withdrawEth()` inside a
`try`/`catch` that only logs. -/
def withdrawLockboxETH (L : Ledger) (walletAddress vmId : String)
    (txOk : Bool) (s : EngineState) :
    Except BridgeError EngineState × List TxIntent :=
  if txOk then
    match updateEthBalances L walletAddress vmId s with
    | .ok (s', _) => (.ok s', [.withdrawEthLockbox])
    | .error _ => (.ok s, [.withdrawEthLockbox])
  else (.ok s, [.withdrawEthLockbox])

/-! ### Token methods -/

/-- Whether a `BridgeToken` passes the optional kind filter of
`updateTokenBalances` (`!type || c.type === type`). -/
def matchesFilter (filt : Option TokenType) (t : BridgeToken) : Bool :=
  match filt with
  | none => true
  | some ty => t.tokenKind = ty

/-- The per-asset ERC20 update object of `updateTokenBalances`. -/
def erc20EntryOf (L : Ledger) (walletAddress vmId : String)
    (t : BridgeToken) : ERC20BalanceEntry :=
  { balance := L.balanceOf t.ethAddress walletAddress
    arbChainBalance := L.arbBalanceOf t.ethAddress walletAddress
    lockBoxBalance := L.inboxERC20Balance t.ethAddress walletAddress
    totalArbBalance := L.inboxERC20Balance t.ethAddress vmId
    asset := t.symbol }

/-- The per-asset ERC721 update object of `updateTokenBalances`. -/
def erc721EntryOf (L : Ledger) (walletAddress vmId : String)
    (t : BridgeToken) : ERC721Balance :=
  { tokens := L.tokensOfOwner t.ethAddress walletAddress
    arbChainTokens := L.arbTokensOfOwner t.ethAddress walletAddress
    totalArbTokens := L.inboxERC721Tokens t.ethAddress vmId
    lockBoxTokens := L.inboxERC721Tokens t.ethAddress walletAddress }

/-- The `erc20Updates` map accumulated by the refresh loop: one entry,
keyed by `contract.eth.address`, per filtered ERC20 contract, in
iteration order. -/
def erc20UpdatesOf (L : Ledger) (walletAddress vmId : String)
    (tokens : List (String × BridgeToken)) (filt : Option TokenType) :
    List (String × ERC20BalanceEntry) :=
  (tokens.filter fun p => matchesFilter filt p.2).filterMap fun p =>
    match p.2 with
    | .erc20 .. => some (p.2.ethAddress, erc20EntryOf L walletAddress vmId p.2)
    | .erc721 .. => none

/-- The `erc721Updates` map accumulated by the refresh loop. -/
def erc721UpdatesOf (L : Ledger) (walletAddress vmId : String)
    (tokens : List (String × BridgeToken)) (filt : Option TokenType) :
    List (String × ERC721Balance) :=
  (tokens.filter fun p => matchesFilter filt p.2).filterMap fun p =>
    match p.2 with
    | .erc20 .. => none
    | .erc721 .. => some (p.2.ethAddress, erc721EntryOf L walletAddress vmId p.2)

/-- `updateTokenBalances`, with the token map it iterates over passed
separately: a callback invocation filters the `bridgeTokens` value its
render closure captured, which in the `addToken` flow is the pre-insert
map.  Each per-kind update map is compared as a whole with the previous
map (`!deepEquals(...)`) and merged by object spread only on difference;
the returned booleans record whether `setErc20Balances` /
`setErc721Balances` were called.  The `update20`/`update721` flags of
the source are dead (never read) and not reproduced. -/
def updateTokenBalancesWith (L : Ledger) (walletAddress vmId : String)
    (tokens : List (String × BridgeToken)) (filt : Option TokenType)
    (s : EngineState) : Except BridgeError (EngineState × Bool × Bool) :=
  if walletAddress = "" then .error (.missingReq "updateTokenBalances missing req")
  else
    let u20 := erc20UpdatesOf L walletAddress vmId tokens filt
    let u721 := erc721UpdatesOf L walletAddress vmId tokens filt
    let pub20 := !storEq s.erc20Balances u20
    let s1 :=
      if pub20 then { s with erc20Balances := mergeStor s.erc20Balances u20 } else s
    let pub721 := !storEq s.erc721Balances u721
    let s2 :=
      if pub721 then { s1 with erc721Balances := mergeStor s1.erc721Balances u721 } else s1
    .ok (s2, pub20, pub721)

/-- `updateTokenBalances(type?)` as invoked in a flow whose closure is
current: iterates the state's own token map. -/
def updateTokenBalances (L : Ledger) (walletAddress vmId : String)
    (filt : Option TokenType) (s : EngineState) :
    Except BridgeError (EngineState × Bool × Bool) :=
  updateTokenBalancesWith L walletAddress vmId s.bridgeTokens filt s

/-- `approveToken`: dispatches on the registered token's kind, submits
the maximal-allowance approval (ERC20) or `setApprovalForAll` (ERC721),
waits for inclusion, and on success replaces the stored record with
`{ ...target, allowed: true }`.  No `try`/`catch`: a failed submission
or inclusion propagates to the caller. -/
def approveToken (L : Ledger) (txOk : Bool) (contractAddress : String)
    (s : EngineState) : Except BridgeError EngineState × List TxIntent :=
  match storGet s.bridgeTokens contractAddress with
  | none => (.error (.contractNotPresent contractAddress), [])
  | some contract =>
    let intent : TxIntent :=
      match contract with
      | .erc20 .. => .approveERC20 contract.ethAddress L.inboxAddress MIN_APPROVAL
      | .erc721 .. => .setApprovalForAll contract.ethAddress L.inboxAddress true
    if txOk then
      (.ok { s with bridgeTokens :=
          s.bridgeTokens.map fun p =>
            if p.1 = contractAddress then (p.1, p.2.setAllowed) else p },
       [intent])
    else (.error .txFailed, [intent])

/-- `depositToken`: dispatches on the registered token's kind (ERC20
parses the amount at the asset's decimals; ERC721 passes the token id),
submits the deposit, and returns the inclusion receipt.  No
`try`/`catch`: failures propagate. -/
def depositToken (walletAddress : String) (txOk : Bool)
    (contractAddress amountOrTokenId : String) (s : EngineState) :
    Except BridgeError EngineState × List TxIntent :=
  if walletAddress = "" then (.error (.missingReq "deposit missing req"), [])
  else
    match storGet s.bridgeTokens contractAddress with
    | none => (.error (.contractNotPresent contractAddress), [])
    | some contract =>
      let intent : TxIntent :=
        match contract with
        | .erc20 _ _ _ units _ =>
            .depositERC20 walletAddress contract.ethAddress amountOrTokenId units
        | .erc721 .. =>
            .depositERC721 walletAddress contract.ethAddress amountOrTokenId
      if txOk then (.ok s, [intent]) else (.error .txFailed, [intent])

/-- `withdrawToken`: dispatches on the registered token's kind, but both
branches issue the identical child-chain call
`contract.arb.withdraw(walletAddress, amountOrTokenId)`.  No
`try`/`catch`: failures propagate. -/
def withdrawToken (walletAddress : String) (txOk : Bool)
    (contractAddress amountOrTokenId : String) (s : EngineState) :
    Except BridgeError EngineState × List TxIntent :=
  if walletAddress = "" then (.error (.missingReq "withdraw token no walletAddress"), [])
  else
    match storGet s.bridgeTokens contractAddress with
    | none => (.error (.contractNotPresent contractAddress), [])
    | some contract =>
      let intent : TxIntent :=
        match contract with
        | .erc20 .. => .childWithdraw contract.ethAddress walletAddress amountOrTokenId
        | .erc721 .. => .childWithdraw contract.ethAddress walletAddress amountOrTokenId
      if txOk then (.ok s, [intent]) else (.error .txFailed, [intent])

/-- `withdrawToken` with the kind dispatch removed: the comparison point
for the refinement claim that the dispatch is observationally inert. -/
def withdrawTokenNoDispatch (walletAddress : String) (txOk : Bool)
    (contractAddress amountOrTokenId : String) (s : EngineState) :
    Except BridgeError EngineState × List TxIntent :=
  if walletAddress = "" then (.error (.missingReq "withdraw token no walletAddress"), [])
  else
    match storGet s.bridgeTokens contractAddress with
    | none => (.error (.contractNotPresent contractAddress), [])
    | some contract =>
      let intent : TxIntent :=
        .childWithdraw contract.ethAddress walletAddress amountOrTokenId
      if txOk then (.ok s, [intent]) else (.error .txFailed, [intent])

/-- `withdrawLockboxToken`: ERC20 claims the whole lockbox balance;
ERC721 requires a token id — the JS falsy check `if (!tokenId)` rejects
both an absent id and the empty string, throwing before any submission.
No `try`/`catch`: failures propagate. -/
def withdrawLockboxToken (txOk : Bool) (contractAddress : String)
    (tokenId : Option String) (s : EngineState) :
    Except BridgeError EngineState × List TxIntent :=
  match storGet s.bridgeTokens contractAddress with
  | none => (.error (.contractNotPresent contractAddress), [])
  | some contract =>
    match contract with
    | .erc20 .. =>
      if txOk then (.ok s, [.withdrawERC20 contract.ethAddress])
      else (.error .txFailed, [.withdrawERC20 contract.ethAddress])
    | .erc721 .. =>
      if tokenId.getD "" = "" then (.error (.missingTokenId contractAddress), [])
      else if txOk then (.ok s, [.withdrawERC721 contract.ethAddress (tokenId.getD "")])
      else (.error .txFailed, [.withdrawERC721 contract.ethAddress (tokenId.getD "")])

/-- `(await getCode(address)).length > 2` from `addToken`. -/
def isContract (L : Ledger) (a : String) : Bool :=
  decide (2 < (L.getCode a).length)

/-- `addToken`: fails for a non-contract address, then for an address
already present; otherwise connects the contract pair, reads
name/symbol/(decimals, allowance | operator approval), appends the
address to the kind's cache if absent, inserts the new record, and
awaits a kind-scoped balance refresh.  The refresh call closes over the
render's pre-insert `bridgeTokens`, so it filters `s.bridgeTokens`, not
the freshly inserted map. -/
def addToken (L : Ledger) (walletAddress vmId : String)
    (contractAddress : String) (ty : TokenType) (s : EngineState) :
    Except BridgeError (EngineState × Bool × Bool) :=
  if walletAddress = "" then .error (.missingReq "addToken missing req")
  else if isContract L contractAddress = false then .error .notAContract
  else if (storGet s.bridgeTokens contractAddress).isSome then .error .alreadyRegistered
  else
    let pair : BridgeToken × EngineState :=
      match ty with
      | .erc20 =>
        let obs := L.allowance contractAddress walletAddress L.inboxAddress
        (.erc20 (L.erc20Name contractAddress) (L.erc20Symbol contractAddress)
           (decide (MIN_APPROVAL ≤ obs)) (L.decimals contractAddress) contractAddress,
         if contractAddress ∈ s.erc20Cache then s
         else { s with erc20Cache := s.erc20Cache ++ [contractAddress] })
      | .erc721 =>
        (.erc721 (L.erc721Name contractAddress) (L.erc721Symbol contractAddress)
           (L.isApprovedForAll contractAddress walletAddress L.inboxAddress)
           contractAddress,
         if contractAddress ∈ s.erc721Cache then s
         else { s with erc721Cache := s.erc721Cache ++ [contractAddress] })
    let s2 := { pair.2 with
      bridgeTokens := storInsert s.bridgeTokens contractAddress pair.1 }
    updateTokenBalancesWith L walletAddress vmId s.bridgeTokens (some ty) s2

/-- `expireCache`: clears both persisted caches; nothing else. -/
def expireCache (s : EngineState) : EngineState :=
  { s with erc20Cache := [], erc721Cache := [] }

/-- The load-only effect's per-kind loop: `addToken` is invoked for each
cached address without awaiting or handling its promise, so one
address's failure neither stops the loop nor reaches any caller
(sequentialized here as an error-discarding fold). -/
def restoreList (L : Ledger) (walletAddress vmId : String) (ty : TokenType)
    (addrs : List String) (s : EngineState) : EngineState :=
  addrs.foldl
    (fun st addr =>
      match addToken L walletAddress vmId addr ty st with
      | .ok (st', _, _) => st'
      | .error _ => st)
    s

/-- The load-only `useEffect`: when `autoLoadCache` is set, replays the
ERC20 cache then the ERC721 cache (both as captured at effect time). -/
def loadCacheEffect (L : Ledger) (walletAddress vmId : String)
    (autoLoadCache : Bool) (s : EngineState) : EngineState :=
  if autoLoadCache then
    restoreList L walletAddress vmId .erc721 s.erc721Cache
      (restoreList L walletAddress vmId .erc20 s.erc20Cache s)
  else s

/-- The operations of the engine, for statements quantifying over every
operation. -/
inductive EngineOp where
  | opUpdateEthBalances
  | opDepositEth (txOk : Bool) (wei : Nat)
  | opWithdrawEth (txOk : Bool) (wei : Nat)
  | opWithdrawLockboxETH (txOk : Bool)
  | opUpdateTokenBalances (filt : Option TokenType)
  | opApproveToken (txOk : Bool) (addr : String)
  | opDepositToken (txOk : Bool) (addr amt : String)
  | opWithdrawToken (txOk : Bool) (addr amt : String)
  | opWithdrawLockboxToken (txOk : Bool) (addr : String) (tokenId : Option String)
  | opAddToken (addr : String) (ty : TokenType)
  | opExpireCache
deriving DecidableEq, Repr

/-- Run one operation for its state effect: a thrown error leaves the
hook state as it was. -/
def applyOp (L : Ledger) (walletAddress vmId : String) (op : EngineOp)
    (s : EngineState) : EngineState :=
  match op with
  | .opUpdateEthBalances =>
    match updateEthBalances L walletAddress vmId s with
    | .ok (s', _) => s'
    | .error _ => s
  | .opDepositEth txOk wei =>
    match (depositEth L walletAddress vmId txOk wei s).1 with
    | .ok s' => s'
    | .error _ => s
  | .opWithdrawEth txOk wei =>
    match (withdrawEth L walletAddress vmId txOk wei s).1 with
    | .ok s' => s'
    | .error _ => s
  | .opWithdrawLockboxETH txOk =>
    match (withdrawLockboxETH L walletAddress vmId txOk s).1 with
    | .ok s' => s'
    | .error _ => s
  | .opUpdateTokenBalances filt =>
    match updateTokenBalances L walletAddress vmId filt s with
    | .ok (s', _, _) => s'
    | .error _ => s
  | .opApproveToken txOk addr =>
    match (approveToken L txOk addr s).1 with
    | .ok s' => s'
    | .error _ => s
  | .opDepositToken txOk addr amt =>
    match (depositToken walletAddress txOk addr amt s).1 with
    | .ok s' => s'
    | .error _ => s
  | .opWithdrawToken txOk addr amt =>
    match (withdrawToken walletAddress txOk addr amt s).1 with
    | .ok s' => s'
    | .error _ => s
  | .opWithdrawLockboxToken txOk addr tokenId =>
    match (withdrawLockboxToken txOk addr tokenId s).1 with
    | .ok s' => s'
    | .error _ => s
  | .opAddToken addr ty =>
    match addToken L walletAddress vmId addr ty s with
    | .ok (s', _, _) => s'
    | .error _ => s
  | .opExpireCache => expireCache s

/-- The keys of a contract-storage object. -/
def keysOf {T : Type} (m : List (String × T)) : List String :=
  m.map Prod.fst

/-! ### Concrete fixtures for witnesses and counterexamples -/

/-- A registered fungible asset (already allowed). -/
def tokA : BridgeToken := .erc20 "TokenA" "TKA" true 18 "0xA"

/-- A registered non-fungible asset (operator already approved). -/
def tokB : BridgeToken := .erc721 "TokenB" "TKB" true "0xB"

/-- A deterministic ledger double: every address is a contract, reads
are constant, the wallet is `0xW`, the chain id `0xV`, the inbox
`0xI`. -/
def Lfix : Ledger :=
  { getCode := fun _ => "0xabc"
    inboxAddress := "0xI"
    ethBalance := fun _ => 5
    arbEthBalance := fun _ => 6
    inboxEthBalance := fun _ => 7
    allowance := fun _ _ _ => 0
    erc20Name := fun _ => "TokenA"
    erc20Symbol := fun _ => "TKA"
    decimals := fun _ => 18
    erc721Name := fun _ => "TokenB"
    erc721Symbol := fun _ => "TKB"
    isApprovedForAll := fun _ _ _ => false
    balanceOf := fun _ _ => 1
    arbBalanceOf := fun _ _ => 2
    inboxERC20Balance := fun _ k => if k = "0xW" then 3 else 4
    tokensOfOwner := fun _ _ => [1]
    arbTokensOfOwner := fun _ _ => [2]
    inboxERC721Tokens := fun _ k => if k = "0xW" then [3] else [4] }

/-- Exactly the ERC20 entry `Lfix` yields for `tokA` under wallet `0xW`
and chain `0xV`. -/
def entryA : ERC20BalanceEntry :=
  { balance := 1, arbChainBalance := 2, lockBoxBalance := 3, totalArbBalance := 4, asset := "TKA" }

/-- Exactly the ERC721 entry `Lfix` yields for `tokB`. -/
def entryB : ERC721Balance :=
  { tokens := [1], arbChainTokens := [2], totalArbTokens := [4], lockBoxTokens := [3] }

/-- A settled state: both assets registered and cached, both balance
maps holding exactly the entries a refresh against `Lfix` reads, the
native snapshot matching `Lfix`. -/
def sfix : EngineState :=
  { bridgeTokens := [("0xA", tokA), ("0xB", tokB)]
    ethBalances := { balance := 5, arbChainBalance := 6, totalArbBalance := 7, lockBoxBalance := 7 }
    erc20Balances := [("0xA", entryA)]
    erc721Balances := [("0xB", entryB)]
    erc20Cache := ["0xA"]
    erc721Cache := ["0xB"] }

/-- The record `addToken Lfix ... "0xA" erc20` constructs (allowance 0
is below the sentinel, so `allowed` is false). -/
def tokAreg : BridgeToken := .erc20 "TokenA" "TKA" false 18 "0xA"

/-- The `AssetRecord` that `addToken` constructs for a fresh address, by
kind: `approved` is the allowance test against the sentinel for ERC20,
the operator-approval flag for ERC721. -/
def newTokenOf (L : Ledger) (wa addr : String) : TokenType → BridgeToken
  | .erc20 =>
    .erc20 (L.erc20Name addr) (L.erc20Symbol addr)
      (decide (MIN_APPROVAL ≤ L.allowance addr wa L.inboxAddress))
      (L.decimals addr) addr
  | .erc721 =>
    .erc721 (L.erc721Name addr) (L.erc721Symbol addr)
      (L.isApprovedForAll addr wa L.inboxAddress) addr

/-- `Lfix` except that `0xBAD` has no on-chain code. -/
def Lbad : Ledger :=
  { Lfix with getCode := fun a => if a = "0xBAD" then "0x" else "0xabc" }

/-- `Lfix` except that every allowance is already at the sentinel. -/
def Lrich : Ledger :=
  { Lfix with allowance := fun _ _ _ => 2 ^ 256 - 1 }

/-! ### Storage lemmas -/

theorem storGet_cons {T : Type} (b : String) (v : T) (rest : List (String × T))
    (a : String) :
    storGet ((b, v) :: rest) a = if a = b then some v else storGet rest a := rfl

theorem storGet_append_of_none {T : Type} {m : List (String × T)} {a : String}
    (h : storGet m a = none) (l : List (String × T)) :
    storGet (m ++ l) a = storGet l a := by
  induction m with
  | nil => rfl
  | cons p rest ih =>
    obtain ⟨b, v⟩ := p
    rw [storGet_cons] at h
    rw [List.cons_append, storGet_cons]
    by_cases hab : a = b
    · simp [hab] at h
    · rw [if_neg hab] at h ⊢
      exact ih h

theorem storGet_append_of_some {T : Type} {m : List (String × T)} {a : String}
    {t : T} (h : storGet m a = some t) (l : List (String × T)) :
    storGet (m ++ l) a = some t := by
  induction m with
  | nil => simp [storGet] at h
  | cons p rest ih =>
    obtain ⟨b, v⟩ := p
    rw [storGet_cons] at h
    rw [List.cons_append, storGet_cons]
    by_cases hab : a = b
    · rw [if_pos hab] at h ⊢
      exact h
    · rw [if_neg hab] at h ⊢
      exact ih h

theorem storGet_some_mem {T : Type} {m : List (String × T)} {a : String} {t : T}
    (h : storGet m a = some t) : (a, t) ∈ m := by
  induction m with
  | nil => simp [storGet] at h
  | cons p rest ih =>
    obtain ⟨b, v⟩ := p
    rw [storGet_cons] at h
    by_cases hab : a = b
    · rw [if_pos hab] at h
      injection h with hv
      subst hv
      subst hab
      exact List.mem_cons_self _ _
    · rw [if_neg hab] at h
      exact List.mem_cons_of_mem _ (ih h)

theorem storInsert_of_none {T : Type} {m : List (String × T)} {a : String}
    (h : storGet m a = none) (v : T) : storInsert m a v = m ++ [(a, v)] := by
  unfold storInsert
  rw [h]
  rfl

theorem storGet_storInsert_self {T : Type} {m : List (String × T)} {a : String}
    (h : storGet m a = none) (v : T) : storGet (storInsert m a v) a = some v := by
  rw [storInsert_of_none h, storGet_append_of_none h, storGet_cons, if_pos rfl]

/-! ### Frame lemmas for the refresh and registration operations -/

theorem updateTokenBalancesWith_ok (L : Ledger) (wa vmId : String)
    (tokens : List (String × BridgeToken)) (filt : Option TokenType)
    (s : EngineState) (h : wa ≠ "") :
    ∃ s' p q, updateTokenBalancesWith L wa vmId tokens filt s = .ok (s', p, q)
      ∧ s'.bridgeTokens = s.bridgeTokens
      ∧ s'.erc20Cache = s.erc20Cache
      ∧ s'.erc721Cache = s.erc721Cache
      ∧ s'.ethBalances = s.ethBalances := by
  unfold updateTokenBalancesWith
  rw [if_neg h]
  refine ⟨_, _, _, rfl, ?_, ?_, ?_, ?_⟩ <;> (dsimp only; split <;> split <;> rfl)

theorem updateTokenBalancesWith_ok_inv {L : Ledger} {wa vmId : String}
    {tokens : List (String × BridgeToken)} {filt : Option TokenType}
    {s s' : EngineState} {p q : Bool}
    (h : updateTokenBalancesWith L wa vmId tokens filt s = .ok (s', p, q)) :
    s'.bridgeTokens = s.bridgeTokens ∧ s'.erc20Cache = s.erc20Cache
      ∧ s'.erc721Cache = s.erc721Cache ∧ s'.ethBalances = s.ethBalances := by
  have hwa : wa ≠ "" := by
    intro hwa
    rw [hwa] at h
    exact absurd h (by simp [updateTokenBalancesWith])
  obtain ⟨s2, p2, q2, heq, hprops⟩ :=
    updateTokenBalancesWith_ok L wa vmId tokens filt s hwa
  rw [heq] at h
  injection h with h
  rw [Prod.mk.injEq] at h
  rw [← h.1]
  exact hprops

theorem BridgeToken.setAllowed_allowed (t : BridgeToken) :
    t.setAllowed.allowed = true := by
  cases t <;> rfl

theorem BridgeToken.setAllowed_of_allowed {t : BridgeToken}
    (h : t.allowed = true) : t.setAllowed = t := by
  cases t <;> (simp [BridgeToken.allowed] at h; simp [BridgeToken.setAllowed, h])

theorem storGet_mapSetAllowed (m : List (String × BridgeToken)) (c a : String) :
    storGet (m.map fun p => if p.1 = c then (p.1, p.2.setAllowed) else p) a
      = (storGet m a).map (fun t => if a = c then t.setAllowed else t) := by
  induction m with
  | nil => rfl
  | cons p rest ih =>
    obtain ⟨b, v⟩ := p
    by_cases hbc : b = c
    · subst hbc
      by_cases hab : a = b
      · simp [storGet_cons, hab]
      · simp [storGet_cons, hab, ih]
    · by_cases hab : a = b
      · simp [storGet_cons, hbc, hab]
      · simp [storGet_cons, hbc, hab, ih]

theorem map_setAllowed_id {m : List (String × BridgeToken)} {c : String}
    (h : ∀ p ∈ m, p.1 = c → p.2.allowed = true) :
    (m.map fun p => if p.1 = c then (p.1, p.2.setAllowed) else p) = m := by
  induction m with
  | nil => rfl
  | cons p rest ih =>
    obtain ⟨b, v⟩ := p
    rw [List.map_cons]
    by_cases hbc : b = c
    · have hv : v.allowed = true := h (b, v) (List.mem_cons_self _ _) hbc
      rw [if_pos hbc, BridgeToken.setAllowed_of_allowed hv,
        ih (fun p hp => h p (List.mem_cons_of_mem _ hp))]
    · rw [if_neg hbc, ih (fun p hp => h p (List.mem_cons_of_mem _ hp))]

theorem nodup_storGet_unique {m : List (String × BridgeToken)} {a : String}
    {t : BridgeToken} (hnd : (keysOf m).Nodup) (hget : storGet m a = some t) :
    ∀ p ∈ m, p.1 = a → p.2 = t := by
  induction m with
  | nil => simp
  | cons p rest ih =>
    obtain ⟨b, v⟩ := p
    rw [keysOf, List.map_cons, List.nodup_cons] at hnd
    intro q hq hqa
    rcases List.mem_cons.mp hq with hq | hq
    · subst hq
      rw [storGet_cons, if_pos hqa.symm] at hget
      exact Option.some.inj hget
    · have hmem : q.1 ∈ rest.map Prod.fst := List.mem_map_of_mem Prod.fst hq
      have hba : ¬ a = b := by
        intro hab
        rw [hqa, hab] at hmem
        exact hnd.1 hmem
      rw [storGet_cons, if_neg hba] at hget
      exact ih hnd.2 hget q hq hqa

/-- Inversion of a successful `addToken`: the guards passed, the address
was fresh, the new record was appended, and the token map and native
snapshot are otherwise untouched. -/
theorem addToken_ok_inv {L : Ledger} {wa vmId addr : String} {ty : TokenType}
    {s s' : EngineState} {p q : Bool}
    (h : addToken L wa vmId addr ty s = .ok (s', p, q)) :
    storGet s.bridgeTokens addr = none
      ∧ s'.bridgeTokens = s.bridgeTokens ++ [(addr, newTokenOf L wa addr ty)]
      ∧ s'.ethBalances = s.ethBalances := by
  unfold addToken at h
  by_cases h1 : wa = ""
  · rw [if_pos h1] at h
    exact absurd h (by simp)
  rw [if_neg h1] at h
  by_cases h2 : isContract L addr = false
  · rw [if_pos h2] at h
    exact absurd h (by simp)
  rw [if_neg h2] at h
  by_cases h3 : (storGet s.bridgeTokens addr).isSome = true
  · rw [if_pos h3] at h
    exact absurd h (by simp)
  rw [if_neg h3] at h
  have hfresh : storGet s.bridgeTokens addr = none := by
    cases hg : storGet s.bridgeTokens addr with
    | none => rfl
    | some t => rw [hg] at h3; simp at h3
  cases ty <;>
  · dsimp only at h
    obtain ⟨hbt, _, _, heth⟩ := updateTokenBalancesWith_ok_inv h
    rw [storInsert_of_none hfresh] at hbt
    refine ⟨hfresh, hbt, ?_⟩
    rw [heth]
    split <;> rfl

/-- Constructive success lemma for `addToken` on a fresh contract
address: the call succeeds and appends exactly the observed record. -/
theorem addToken_ok (L : Ledger) (wa vmId addr : String) (ty : TokenType)
    (s : EngineState) (hwa : wa ≠ "") (hc : isContract L addr = true)
    (hfresh : storGet s.bridgeTokens addr = none) :
    ∃ s' p q, addToken L wa vmId addr ty s = .ok (s', p, q)
      ∧ s'.bridgeTokens = s.bridgeTokens ++ [(addr, newTokenOf L wa addr ty)] := by
  unfold addToken
  rw [if_neg hwa, if_neg (by rw [hc]; simp), if_neg (by rw [hfresh]; simp)]
  cases ty <;>
  · dsimp only
    obtain ⟨s', p, q, heq, hbt, -⟩ :=
      updateTokenBalancesWith_ok L wa vmId s.bridgeTokens _ _ hwa
    refine ⟨s', p, q, heq, ?_⟩
    rw [hbt]
    dsimp only
    rw [storInsert_of_none hfresh]
    rfl

/-- C9: `expireCache` clears the persisted Cache for both asset kinds
and changes nothing else — the in-memory Registry, the native balance
snapshot, and both per-kind balance maps are exactly as before. -/
theorem expireCache_clearsOnlyCache (s : EngineState) :
    (expireCache s).erc20Cache = [] ∧ (expireCache s).erc721Cache = []
      ∧ (expireCache s).bridgeTokens = s.bridgeTokens
      ∧ (expireCache s).ethBalances = s.ethBalances
      ∧ (expireCache s).erc20Balances = s.erc20Balances
      ∧ (expireCache s).erc721Balances = s.erc721Balances :=
  ⟨rfl, rfl, rfl, rfl, rfl, rfl⟩

/-- Witness: C9 at the concrete settled state. -/
theorem expireCache_clearsOnlyCache_witness :
    (expireCache sfix).erc20Cache = [] ∧ (expireCache sfix).erc721Cache = []
      ∧ (expireCache sfix).bridgeTokens = sfix.bridgeTokens
      ∧ (expireCache sfix).ethBalances = sfix.ethBalances
      ∧ (expireCache sfix).erc20Balances = sfix.erc20Balances
      ∧ (expireCache sfix).erc721Balances = sfix.erc721Balances :=
  expireCache_clearsOnlyCache sfix

/-- C10: `withdrawToken` is observationally equal to the same function
with the kind dispatch removed — both branches of the dispatch issue the
identical child-chain withdraw call. -/
theorem withdrawToken_eq_noDispatch (wa : String) (txOk : Bool)
    (addr amt : String) (s : EngineState) :
    withdrawToken wa txOk addr amt s = withdrawTokenNoDispatch wa txOk addr amt s := by
  unfold withdrawToken withdrawTokenNoDispatch
  split
  · rfl
  · cases hs : storGet s.bridgeTokens addr with
    | none => rfl
    | some t => cases t <;> rfl

/-- Witness: C10 at a concrete input. -/
theorem withdrawToken_eq_noDispatch_witness :
    withdrawToken "0xW" false "0xA" "5" sfix
      = withdrawTokenNoDispatch "0xW" false "0xA" "5" sfix :=
  withdrawToken_eq_noDispatch "0xW" false "0xA" "5" sfix

/-- C8: for a registered non-fungible asset, `withdrawLockboxToken`
without a token identifier fails with the missing-token-id error, with
an empty submission list (no ledger transaction), and the engine state
is unchanged. -/
theorem withdrawLockboxToken_missingTokenId (L : Ledger) (wa vmId : String)
    (txOk : Bool) (addr : String) (s : EngineState) (t : BridgeToken)
    (hreg : storGet s.bridgeTokens addr = some t)
    (h721 : t.tokenKind = TokenType.erc721) :
    withdrawLockboxToken txOk addr none s = (.error (.missingTokenId addr), [])
      ∧ applyOp L wa vmId (.opWithdrawLockboxToken txOk addr none) s = s := by
  have hmain : withdrawLockboxToken txOk addr none s
      = (.error (.missingTokenId addr), []) := by
    unfold withdrawLockboxToken
    rw [hreg]
    cases t with
    | erc20 n sy al u a => simp [BridgeToken.tokenKind] at h721
    | erc721 n sy al a => rfl
  refine ⟨hmain, ?_⟩
  simp only [applyOp, hmain]

/-- Witness: C8 at the registered non-fungible asset `0xB`. -/
theorem withdrawLockboxToken_missingTokenId_witness :
    withdrawLockboxToken true "0xB" none sfix = (.error (.missingTokenId "0xB"), [])
      ∧ applyOp Lfix "0xW" "0xV" (.opWithdrawLockboxToken true "0xB" none) sfix = sfix :=
  withdrawLockboxToken_missingTokenId Lfix "0xW" "0xV" true "0xB" sfix tokB
    (by decide) (by decide)

/-- C4: `register` is idempotent-guarded — a `register` call on an
address already present in the Registry fails with the
already-registered error and leaves the whole engine state (Registry and
persisted Cache included) unchanged. -/
theorem addToken_alreadyRegistered (L : Ledger) (wa vmId addr : String)
    (ty : TokenType) (s : EngineState) (hwa : wa ≠ "")
    (hc : isContract L addr = true)
    (hreg : (storGet s.bridgeTokens addr).isSome = true) :
    addToken L wa vmId addr ty s = .error .alreadyRegistered
      ∧ applyOp L wa vmId (.opAddToken addr ty) s = s := by
  have hmain : addToken L wa vmId addr ty s = .error .alreadyRegistered := by
    unfold addToken
    rw [if_neg hwa, if_neg (by rw [hc]; simp), if_pos hreg]
  refine ⟨hmain, ?_⟩
  simp only [applyOp, hmain]

/-- Witness: C4 — registering the already-registered `0xA` again. -/
theorem addToken_alreadyRegistered_witness :
    addToken Lfix "0xW" "0xV" "0xA" TokenType.erc20 sfix = .error .alreadyRegistered
      ∧ applyOp Lfix "0xW" "0xV" (.opAddToken "0xA" TokenType.erc20) sfix = sfix :=
  addToken_alreadyRegistered Lfix "0xW" "0xV" "0xA" TokenType.erc20 sfix
    (by decide) (by decide) (by decide)

/-- C6: on a successful `register`, the stored record's `approved` flag
equals the approval state observed on the ledger at registration time:
for the fungible kind it is the test `allowance ≥ MIN_APPROVAL` against
the maximal sentinel, for the non-fungible kind it is the observed
operator-approval flag. -/
theorem addToken_approvedObserved (L : Ledger) (wa vmId addr : String)
    (s : EngineState) (hwa : wa ≠ "") (hc : isContract L addr = true)
    (hfresh : storGet s.bridgeTokens addr = none) :
    (∃ s' p q, addToken L wa vmId addr .erc20 s = .ok (s', p, q)
       ∧ storGet s'.bridgeTokens addr
           = some (.erc20 (L.erc20Name addr) (L.erc20Symbol addr)
               (decide (MIN_APPROVAL ≤ L.allowance addr wa L.inboxAddress))
               (L.decimals addr) addr))
  ∧ (∃ s' p q, addToken L wa vmId addr .erc721 s = .ok (s', p, q)
       ∧ storGet s'.bridgeTokens addr
           = some (.erc721 (L.erc721Name addr) (L.erc721Symbol addr)
               (L.isApprovedForAll addr wa L.inboxAddress) addr)) := by
  constructor
  · obtain ⟨s', p, q, heq, hbt⟩ := addToken_ok L wa vmId addr .erc20 s hwa hc hfresh
    refine ⟨s', p, q, heq, ?_⟩
    rw [hbt, storGet_append_of_none hfresh, storGet_cons, if_pos rfl]
    rfl
  · obtain ⟨s', p, q, heq, hbt⟩ := addToken_ok L wa vmId addr .erc721 s hwa hc hfresh
    refine ⟨s', p, q, heq, ?_⟩
    rw [hbt, storGet_append_of_none hfresh, storGet_cons, if_pos rfl]
    rfl

/-- Witness: C6 under `Lrich`, whose allowance is already at the
sentinel — the fungible record is approved immediately, with no
`approve` call. -/
theorem addToken_approvedObserved_witness :
    (∃ s' p q, addToken Lrich "0xW" "0xV" "0xC" .erc20 sfix = .ok (s', p, q)
       ∧ storGet s'.bridgeTokens "0xC"
           = some (.erc20 (Lrich.erc20Name "0xC") (Lrich.erc20Symbol "0xC")
               (decide (MIN_APPROVAL ≤ Lrich.allowance "0xC" "0xW" Lrich.inboxAddress))
               (Lrich.decimals "0xC") "0xC"))
  ∧ (∃ s' p q, addToken Lrich "0xW" "0xV" "0xC" .erc721 sfix = .ok (s', p, q)
       ∧ storGet s'.bridgeTokens "0xC"
           = some (.erc721 (Lrich.erc721Name "0xC") (Lrich.erc721Symbol "0xC")
               (Lrich.isApprovedForAll "0xC" "0xW" Lrich.inboxAddress) "0xC")) :=
  addToken_approvedObserved Lrich "0xW" "0xV" "0xC" sfix
    (by decide) (by decide) (by decide)

/-- C1 counterexample: a native deposit whose transaction fails is NOT
surfaced to the caller — `depositEth` submits (second conjunct: one
submission was attempted) yet resolves normally with the state
unchanged, because its `catch` block only logs.  This refutes the claim
that every transition operation surfaces submission/inclusion failures
synchronously. -/
theorem depositEth_swallowsTxFailure :
    (depositEth Lfix "0xW" "0xV" false 1 sfix).1 = .ok sfix
      ∧ (depositEth Lfix "0xW" "0xV" false 1 sfix).2 = [.depositETH "0xW" 1] := by
  decide

/-- C1 amended: the asset transitions (`depositToken`, `withdrawToken`,
`withdrawLockboxToken`) surface a submission/inclusion failure
synchronously as a typed error, while the native transitions
(`depositEth`, `withdrawEth`, `withdrawLockboxETH`) catch the failure
internally (logging it) and complete normally with the engine state
unchanged. -/
theorem txFailureSurfacing :
    (∀ (wa addr amt : String) (s : EngineState) (t : BridgeToken), wa ≠ "" →
        storGet s.bridgeTokens addr = some t →
        (depositToken wa false addr amt s).1 = .error .txFailed)
  ∧ (∀ (wa addr amt : String) (s : EngineState) (t : BridgeToken), wa ≠ "" →
        storGet s.bridgeTokens addr = some t →
        (withdrawToken wa false addr amt s).1 = .error .txFailed)
  ∧ (∀ (addr : String) (tid : Option String) (s : EngineState) (t : BridgeToken),
        storGet s.bridgeTokens addr = some t →
        (t.tokenKind = TokenType.erc20 ∨ tid.getD "" ≠ "") →
        (withdrawLockboxToken false addr tid s).1 = .error .txFailed)
  ∧ (∀ (L : Ledger) (wa vmId : String) (wei : Nat) (s : EngineState), wa ≠ "" →
        (depositEth L wa vmId false wei s).1 = .ok s)
  ∧ (∀ (L : Ledger) (wa vmId : String) (wei : Nat) (s : EngineState),
        (withdrawEth L wa vmId false wei s).1 = .ok s)
  ∧ (∀ (L : Ledger) (wa vmId : String) (s : EngineState),
        (withdrawLockboxETH L wa vmId false s).1 = .ok s) := by
  refine ⟨?_, ?_, ?_, ?_, ?_, ?_⟩
  · intro wa addr amt s t hwa hreg
    unfold depositToken
    rw [if_neg hwa, hreg]
    cases t <;> rfl
  · intro wa addr amt s t hwa hreg
    unfold withdrawToken
    rw [if_neg hwa, hreg]
    cases t <;> rfl
  · intro addr tid s t hreg ht
    unfold withdrawLockboxToken
    rw [hreg]
    cases t with
    | erc20 n sy al u a => rfl
    | erc721 n sy al a =>
      rcases ht with ht | ht
      · simp [BridgeToken.tokenKind] at ht
      · dsimp only
        rw [if_neg ht]
        rfl
  · intro L wa vmId wei s hwa
    unfold depositEth
    rw [if_neg hwa]
    rfl
  · intro L wa vmId wei s
    rfl
  · intro L wa vmId s
    rfl

/-- Witness: C1 amended at concrete inputs — asset operations error on a
failed transaction; native operations resolve normally. -/
theorem txFailureSurfacing_witness :
    (depositToken "0xW" false "0xA" "5" sfix).1 = .error .txFailed
      ∧ (withdrawToken "0xW" false "0xB" "7" sfix).1 = .error .txFailed
      ∧ (withdrawLockboxToken false "0xA" none sfix).1 = .error .txFailed
      ∧ (withdrawEth Lfix "0xW" "0xV" false 1 sfix).1 = .ok sfix
      ∧ (withdrawLockboxETH Lfix "0xW" "0xV" false sfix).1 = .ok sfix := by
  obtain ⟨h1, h2, h3, h4, h5, h6⟩ := txFailureSurfacing
  exact ⟨h1 "0xW" "0xA" "5" sfix tokA (by decide) (by decide),
    h2 "0xW" "0xB" "7" sfix tokB (by decide) (by decide),
    h3 "0xA" none sfix tokA (by decide) (Or.inl (by decide)),
    h5 Lfix "0xW" "0xV" 1 sfix,
    h6 Lfix "0xW" "0xV" sfix⟩

/-- C7 evaluated at the failing input: registering the fungible contract
`0xA` into an empty engine succeeds (the record is inserted, the address
cached, the kind-scoped refresh runs and publishes nothing — both flags
false), yet afterwards the fungible balance map holds NO entry for
`0xA`: the refresh triggered by the registration filtered the
pre-insert token map, which was empty.  The spec's invariant that the
completed registration-triggered refresh populates the entry fails on
the code. -/
theorem addToken_staleRefreshMissesNewAsset :
    addToken Lfix "0xW" "0xV" "0xA" TokenType.erc20 (initialState [] [])
      = .ok ({ initialState [] [] with
                bridgeTokens := [("0xA", tokAreg)], erc20Cache := ["0xA"] },
             false, false)
      ∧ storGet ({ initialState [] [] with
                    bridgeTokens := [("0xA", tokAreg)],
                    erc20Cache := ["0xA"] } : EngineState).erc20Balances "0xA"
          = none := by
  decide

/-- C3 counterexample: in the settled state `sfix` every tracked asset's
freshly read four-tier values coincide with its stored entry (conjuncts
2–5), so no tracked asset changed; still, a fungible-kind-scoped refresh
publishes a non-fungible-kind update (third component `true`: the
non-fungible setter is invoked with a merge of the empty accumulated
map), republishing a structurally unchanged value.  This refutes
"publishes ... exactly when some tracked asset's four-tier values
changed". -/
theorem updateTokenBalances_spuriousPublish :
    updateTokenBalances Lfix "0xW" "0xV" (some TokenType.erc20) sfix
        = .ok (sfix, false, true)
      ∧ erc20EntryOf Lfix "0xW" "0xV" tokA = entryA
      ∧ erc721EntryOf Lfix "0xW" "0xV" tokB = entryB
      ∧ sfix.erc20Balances = [("0xA", entryA)]
      ∧ sfix.erc721Balances = [("0xB", entryB)] := by
  decide

/-! ### Per-operation inversion lemmas -/

theorem updateEthBalances_ok_inv {L : Ledger} {wa vmId : String}
    {s s' : EngineState} {pub : Bool}
    (h : updateEthBalances L wa vmId s = .ok (s', pub)) :
    s'.bridgeTokens = s.bridgeTokens ∧ s'.erc20Balances = s.erc20Balances
      ∧ s'.erc721Balances = s.erc721Balances ∧ s'.erc20Cache = s.erc20Cache
      ∧ s'.erc721Cache = s.erc721Cache := by
  unfold updateEthBalances at h
  split at h
  · exact absurd h (by simp)
  · dsimp only at h
    split at h <;>
    · injection h with h
      rw [Prod.mk.injEq] at h
      rw [← h.1]
      exact ⟨rfl, rfl, rfl, rfl, rfl⟩

theorem depositEth_ok_inv {L : Ledger} {wa vmId : String} {txOk : Bool}
    {wei : Nat} {s s' : EngineState}
    (h : (depositEth L wa vmId txOk wei s).1 = .ok s') :
    s'.bridgeTokens = s.bridgeTokens := by
  unfold depositEth at h
  split at h
  · exact absurd h (by simp)
  split at h
  · split at h
    · rename_i s2 pub heq
      dsimp only at h
      injection h with h
      rw [← h]
      exact (updateEthBalances_ok_inv heq).1
    · dsimp only at h
      injection h with h
      rw [← h]
  · dsimp only at h
    injection h with h
    rw [← h]

theorem withdrawEth_ok_inv {L : Ledger} {wa vmId : String} {txOk : Bool}
    {wei : Nat} {s s' : EngineState}
    (h : (withdrawEth L wa vmId txOk wei s).1 = .ok s') :
    s'.bridgeTokens = s.bridgeTokens := by
  unfold withdrawEth at h
  split at h
  · split at h
    · rename_i s2 pub heq
      dsimp only at h
      injection h with h
      rw [← h]
      exact (updateEthBalances_ok_inv heq).1
    · dsimp only at h
      injection h with h
      rw [← h]
  · dsimp only at h
    injection h with h
    rw [← h]

theorem withdrawLockboxETH_ok_inv {L : Ledger} {wa vmId : String}
    {txOk : Bool} {s s' : EngineState}
    (h : (withdrawLockboxETH L wa vmId txOk s).1 = .ok s') :
    s'.bridgeTokens = s.bridgeTokens := by
  unfold withdrawLockboxETH at h
  split at h
  · split at h
    · rename_i s2 pub heq
      dsimp only at h
      injection h with h
      rw [← h]
      exact (updateEthBalances_ok_inv heq).1
    · dsimp only at h
      injection h with h
      rw [← h]
  · dsimp only at h
    injection h with h
    rw [← h]

theorem depositToken_ok_inv {wa : String} {txOk : Bool} {addr amt : String}
    {s s' : EngineState}
    (h : (depositToken wa txOk addr amt s).1 = .ok s') : s' = s := by
  unfold depositToken at h
  split at h
  · exact absurd h (by simp)
  split at h
  · exact absurd h (by simp)
  · dsimp only at h
    split at h
    · injection h with h
      exact h.symm
    · exact absurd h (by simp)

theorem withdrawToken_ok_inv {wa : String} {txOk : Bool} {addr amt : String}
    {s s' : EngineState}
    (h : (withdrawToken wa txOk addr amt s).1 = .ok s') : s' = s := by
  unfold withdrawToken at h
  split at h
  · exact absurd h (by simp)
  split at h
  · exact absurd h (by simp)
  · dsimp only at h
    split at h
    · injection h with h
      exact h.symm
    · exact absurd h (by simp)

theorem withdrawLockboxToken_ok_inv {txOk : Bool} {addr : String}
    {tid : Option String} {s s' : EngineState}
    (h : (withdrawLockboxToken txOk addr tid s).1 = .ok s') : s' = s := by
  unfold withdrawLockboxToken at h
  split at h
  · exact absurd h (by simp)
  split at h
  · split at h
    · injection h with h
      exact h.symm
    · exact absurd h (by simp)
  · split at h
    · exact absurd h (by simp)
    split at h
    · injection h with h
      exact h.symm
    · exact absurd h (by simp)

theorem approveToken_ok_inv {L : Ledger} {txOk : Bool} {addr : String}
    {s s' : EngineState}
    (h : (approveToken L txOk addr s).1 = .ok s') :
    (∃ c, storGet s.bridgeTokens addr = some c)
      ∧ s'.bridgeTokens
          = s.bridgeTokens.map (fun p => if p.1 = addr then (p.1, p.2.setAllowed) else p)
      ∧ s'.erc20Balances = s.erc20Balances ∧ s'.erc721Balances = s.erc721Balances
      ∧ s'.ethBalances = s.ethBalances
      ∧ s'.erc20Cache = s.erc20Cache ∧ s'.erc721Cache = s.erc721Cache := by
  unfold approveToken at h
  split at h
  · exact absurd h (by simp)
  · rename_i contract heq
    dsimp only at h
    split at h
    · injection h with h
      rw [← h]
      exact ⟨⟨contract, heq⟩, rfl, rfl, rfl, rfl, rfl, rfl⟩
    · exact absurd h (by simp)

/-- C5: the `approved` flag of every stored record is write-once-true.
First conjunct: no engine operation ever takes a record from
`allowed = true` to `allowed = false` (the record stays present and
allowed).  Second: a successful `approve` leaves the target allowed.
Third: repeating `approve` after success is a state no-op — on a
well-formed (unique-key) registry with the target already allowed, the
successful call returns exactly the unchanged state. -/
theorem approved_writeOnceTrue (L : Ledger) (wa vmId : String) (s : EngineState) :
    (∀ (op : EngineOp) (a : String) (t : BridgeToken),
        storGet s.bridgeTokens a = some t → t.allowed = true →
        ∃ t', storGet (applyOp L wa vmId op s).bridgeTokens a = some t'
           ∧ t'.allowed = true)
  ∧ (∀ (a : String) (s' : EngineState), (approveToken L true a s).1 = .ok s' →
        ∃ t', storGet s'.bridgeTokens a = some t' ∧ t'.allowed = true)
  ∧ (∀ (a : String) (t : BridgeToken), (keysOf s.bridgeTokens).Nodup →
        storGet s.bridgeTokens a = some t → t.allowed = true →
        (approveToken L true a s).1 = .ok s) := by
  refine ⟨?_, ?_, ?_⟩
  · intro op a t hget hal
    cases op with
    | opUpdateEthBalances =>
      refine ⟨t, ?_, hal⟩
      simp only [applyOp]
      cases h : updateEthBalances L wa vmId s with
      | error e => exact hget
      | ok pr =>
        obtain ⟨s2, pub⟩ := pr
        dsimp only
        rw [(updateEthBalances_ok_inv h).1]
        exact hget
    | opDepositEth txOk wei =>
      refine ⟨t, ?_, hal⟩
      simp only [applyOp]
      cases h : (depositEth L wa vmId txOk wei s).1 with
      | error e => exact hget
      | ok s2 =>
        dsimp only
        rw [depositEth_ok_inv h]
        exact hget
    | opWithdrawEth txOk wei =>
      refine ⟨t, ?_, hal⟩
      simp only [applyOp]
      cases h : (withdrawEth L wa vmId txOk wei s).1 with
      | error e => exact hget
      | ok s2 =>
        dsimp only
        rw [withdrawEth_ok_inv h]
        exact hget
    | opWithdrawLockboxETH txOk =>
      refine ⟨t, ?_, hal⟩
      simp only [applyOp]
      cases h : (withdrawLockboxETH L wa vmId txOk s).1 with
      | error e => exact hget
      | ok s2 =>
        dsimp only
        rw [withdrawLockboxETH_ok_inv h]
        exact hget
    | opUpdateTokenBalances filt =>
      refine ⟨t, ?_, hal⟩
      simp only [applyOp]
      cases h : updateTokenBalances L wa vmId filt s with
      | error e => exact hget
      | ok pr =>
        obtain ⟨s2, p2, q2⟩ := pr
        dsimp only
        unfold updateTokenBalances at h
        rw [(updateTokenBalancesWith_ok_inv h).1]
        exact hget
    | opApproveToken txOk addr =>
      simp only [applyOp]
      cases h : (approveToken L txOk addr s).1 with
      | error e => exact ⟨t, hget, hal⟩
      | ok s2 =>
        dsimp only
        refine ⟨if a = addr then t.setAllowed else t, ?_, ?_⟩
        · rw [(approveToken_ok_inv h).2.1, storGet_mapSetAllowed, hget]
          rfl
        · by_cases hac : a = addr
          · rw [if_pos hac]
            exact BridgeToken.setAllowed_allowed t
          · rw [if_neg hac]
            exact hal
    | opDepositToken txOk addr amt =>
      refine ⟨t, ?_, hal⟩
      simp only [applyOp]
      cases h : (depositToken wa txOk addr amt s).1 with
      | error e => exact hget
      | ok s2 =>
        dsimp only
        rw [depositToken_ok_inv h]
        exact hget
    | opWithdrawToken txOk addr amt =>
      refine ⟨t, ?_, hal⟩
      simp only [applyOp]
      cases h : (withdrawToken wa txOk addr amt s).1 with
      | error e => exact hget
      | ok s2 =>
        dsimp only
        rw [withdrawToken_ok_inv h]
        exact hget
    | opWithdrawLockboxToken txOk addr tid =>
      refine ⟨t, ?_, hal⟩
      simp only [applyOp]
      cases h : (withdrawLockboxToken txOk addr tid s).1 with
      | error e => exact hget
      | ok s2 =>
        dsimp only
        rw [withdrawLockboxToken_ok_inv h]
        exact hget
    | opAddToken addr ty =>
      simp only [applyOp]
      cases h : addToken L wa vmId addr ty s with
      | error e => exact ⟨t, hget, hal⟩
      | ok pr =>
        obtain ⟨s2, p2, q2⟩ := pr
        dsimp only
        refine ⟨t, ?_, hal⟩
        rw [(addToken_ok_inv h).2.1]
        exact storGet_append_of_some hget _
    | opExpireCache => exact ⟨t, hget, hal⟩
  · intro a s' h
    obtain ⟨⟨c, hc⟩, hbt, -⟩ := approveToken_ok_inv h
    refine ⟨c.setAllowed, ?_, BridgeToken.setAllowed_allowed c⟩
    rw [hbt, storGet_mapSetAllowed, hc]
    simp
  · intro a t hnd hget hal
    unfold approveToken
    rw [hget]
    dsimp only
    have hmap : (s.bridgeTokens.map
        fun p => if p.1 = a then (p.1, p.2.setAllowed) else p) = s.bridgeTokens :=
      map_setAllowed_id (fun p hp hpa => by
        rw [nodup_storGet_unique hnd hget p hp hpa]
        exact hal)
    rw [hmap]
    rfl

/-- Witness: C5 instantiated at the settled state — a balance refresh
keeps `0xA` allowed, a successful approve keeps it allowed, and
re-approving the already-allowed `0xA` returns the state unchanged. -/
theorem approved_writeOnceTrue_witness :
    (∃ t', storGet (applyOp Lfix "0xW" "0xV"
          (.opUpdateTokenBalances none) sfix).bridgeTokens "0xA" = some t'
        ∧ t'.allowed = true)
  ∧ (∃ t', storGet sfix.bridgeTokens "0xA" = some t' ∧ t'.allowed = true)
  ∧ (approveToken Lfix true "0xA" sfix).1 = .ok sfix := by
  obtain ⟨h1, h2, h3⟩ := approved_writeOnceTrue Lfix "0xW" "0xV" sfix
  exact ⟨h1 (.opUpdateTokenBalances none) "0xA" tokA (by decide) (by decide),
    h2 "0xA" sfix (by decide),
    h3 "0xA" tokA (by decide) (by decide) (by decide)⟩

/-- Generic count for the restore loop: starting from a state whose
registry holds none of the (pairwise distinct) cached addresses,
replaying the cache registers exactly the addresses that are contracts,
each per-address failure being discarded by the fire-and-forget loop. -/
theorem restoreList_length (L : Ledger) (wa vmId : String) (ty : TokenType)
    (addrs : List String) :
    ∀ (s : EngineState), wa ≠ "" → addrs.Nodup →
      (∀ a ∈ addrs, storGet s.bridgeTokens a = none) →
      (restoreList L wa vmId ty addrs s).bridgeTokens.length
        = s.bridgeTokens.length + (addrs.filter (isContract L)).length := by
  induction addrs with
  | nil =>
    intro s _ _ _
    simp [restoreList]
  | cons addr rest ih =>
    intro s hwa hnd hfresh
    have hstep : restoreList L wa vmId ty (addr :: rest) s
        = restoreList L wa vmId ty rest
            (match addToken L wa vmId addr ty s with
             | .ok (st', _, _) => st'
             | .error _ => s) := by
      unfold restoreList
      rw [List.foldl_cons]
    by_cases hc : isContract L addr = true
    · obtain ⟨s', p, q, heq, hbt⟩ :=
        addToken_ok L wa vmId addr ty s hwa hc (hfresh addr (List.mem_cons_self _ _))
      have hfresh' : ∀ a ∈ rest, storGet s'.bridgeTokens a = none := by
        intro a ha
        rw [hbt, storGet_append_of_none (hfresh a (List.mem_cons_of_mem _ ha)),
          storGet_cons, if_neg]
        · rfl
        · intro haddr
          exact (List.nodup_cons.mp hnd).1 (haddr ▸ ha)
      rw [hstep, heq]
      dsimp only
      rw [ih s' hwa (List.nodup_cons.mp hnd).2 hfresh', hbt,
        List.filter_cons_of_pos hc, List.length_append, List.length_cons,
        List.length_cons, List.length_nil]
      omega
    · have hcf : isContract L addr = false := by
        cases hh : isContract L addr
        · rfl
        · exact absurd hh hc
      have herr : addToken L wa vmId addr ty s = .error .notAContract := by
        unfold addToken
        rw [if_neg hwa, if_pos hcf]
      rw [hstep, herr]
      dsimp only
      rw [ih s hwa (List.nodup_cons.mp hnd).2
        (fun a ha => hfresh a (List.mem_cons_of_mem _ ha)),
        List.filter_cons_of_neg (by rw [hcf]; simp)]

/-- Counterfactual support: had the restore run with a RESOLVED identity
(non-empty wallet address), it would skip a failing address as the spec
describes — a cache of pairwise distinct addresses of which exactly one
is not a contract would end with exactly N-1 registered assets, each
un-awaited per-address failure being discarded.  The code never reaches
this situation: the load-only effect fires at mount, before the
identity is resolved (see the startup evaluation below). -/
theorem restoreWithResolvedIdentity_skipsBadAddress (L : Ledger)
    (wa vmId : String) (addrs : List String) (bad : String) (hwa : wa ≠ "")
    (hnd : addrs.Nodup) (hmem : bad ∈ addrs)
    (hgood : ∀ a ∈ addrs, a ≠ bad → isContract L a = true)
    (hbad : isContract L bad = false) :
    (loadCacheEffect L wa vmId true (initialState addrs [])).bridgeTokens.length
      = addrs.length - 1 := by
  have h1 : loadCacheEffect L wa vmId true (initialState addrs [])
      = restoreList L wa vmId .erc20 addrs (initialState addrs []) := rfl
  rw [h1, restoreList_length L wa vmId .erc20 addrs (initialState addrs [])
    hwa hnd (fun a _ => rfl)]
  have hfe : addrs.filter (isContract L)
      = addrs.filter (fun x => x != bad) :=
    List.filter_congr (fun a ha => by
      by_cases hab : a = bad
      · subst hab
        rw [hbad]
        simp
      · rw [hgood a ha hab]
        simp [hab])
  rw [hfe, ← List.Nodup.erase_eq_filter hnd bad, List.length_erase_of_mem hmem]
  simp [initialState]

/-- Concrete check of the counterfactual restore: with the identity
resolved, a three-address cache whose middle address has no code
registers exactly two assets. -/
theorem restoreWithResolvedIdentity_skipsBadAddress_check :
    (loadCacheEffect Lbad "0xW" "0xV" true
        (initialState ["0xA", "0xBAD", "0xB"] [])).bridgeTokens.length = 2 :=
  restoreWithResolvedIdentity_skipsBadAddress Lbad "0xW" "0xV"
    ["0xA", "0xBAD", "0xB"] "0xBAD"
    (by decide) (by decide) (by decide) (by decide) (by decide)

/-- C2 evaluated at the failing input: the load-only effect runs once at
mount, when the identity is still unresolved — `walletAddress` is the
initial `''` and is set only later by an asynchronous promise — so
every per-address `addToken` of the restore throws its
missing-requirement guard before even reaching the contract check.  For
the three-address cache with one bad address among N = 3, the restore
registers 0 assets, not N - 1 = 2, and returns the state exactly
unchanged. -/
theorem cacheRestoreAtStartup_registersNothing :
    loadCacheEffect Lbad "" "0xV" true (initialState ["0xA", "0xBAD", "0xB"] [])
        = initialState ["0xA", "0xBAD", "0xB"] []
      ∧ addToken Lbad "" "0xV" "0xA" TokenType.erc20
          (initialState ["0xA", "0xBAD", "0xB"] [])
          = .error (.missingReq "addToken missing req")
      ∧ (loadCacheEffect Lbad "" "0xV" true
          (initialState ["0xA", "0xBAD", "0xB"] [])).bridgeTokens.length = 0 := by
  decide

/-- One mismatched key falsifies the whole-map structural comparison. -/
theorem storEq_eq_false_of_mismatch {T : Type} [DecidableEq T]
    {m1 m2 : List (String × T)} {a : String} {e : T}
    (h2 : storGet m2 a = some e) (h1 : storGet m1 a ≠ some e) :
    storEq m1 m2 = false := by
  cases hb : storEq m1 m2
  · rfl
  · exfalso
    unfold storEq at hb
    rw [Bool.and_eq_true] at hb
    have hall := (List.all_eq_true.mp hb.2) (a, e) (storGet_some_mem h2)
    simp only [decide_eq_true_eq] at hall
    exact h1 hall

/-- C3 amended: `refreshNative` publishes iff the fresh snapshot is not
deep-equal to the current one (and a suppressed refresh leaves the state
untouched); `refreshAssets` compares each per-kind accumulated update
map as a whole with the previous map and publishes at most one update
per kind per cycle, exactly when they differ: if both kinds' update maps
deep-equal the previous maps, nothing is published and the state is
returned unchanged, and any tracked asset whose freshly read four-tier
entry differs from its stored entry forces its kind's publish flag.
(The claim's stronger "exactly when some tracked asset changed" fails
only for the cross-kind case refuted by the counterexample: under a kind
filter the other kind's update map is empty and is republished whenever
its previous map is non-empty.) -/
theorem refreshChangeGating (L : Ledger) (wa vmId : String) (s : EngineState)
    (hwa : wa ≠ "") :
    (∀ (s' : EngineState) (pub : Bool),
        updateEthBalances L wa vmId s = .ok (s', pub) →
        (pub = true ↔ ethUpdateOf L wa vmId ≠ s.ethBalances)
        ∧ (pub = false → s' = s))
  ∧ (∀ filt,
        storEq s.erc20Balances (erc20UpdatesOf L wa vmId s.bridgeTokens filt) = true →
        storEq s.erc721Balances (erc721UpdatesOf L wa vmId s.bridgeTokens filt) = true →
        updateTokenBalances L wa vmId filt s = .ok (s, false, false))
  ∧ (∀ filt (a : String) (e : ERC20BalanceEntry) (s' : EngineState) (p q : Bool),
        updateTokenBalances L wa vmId filt s = .ok (s', p, q) →
        storGet (erc20UpdatesOf L wa vmId s.bridgeTokens filt) a = some e →
        storGet s.erc20Balances a ≠ some e → p = true)
  ∧ (∀ filt (a : String) (e : ERC721Balance) (s' : EngineState) (p q : Bool),
        updateTokenBalances L wa vmId filt s = .ok (s', p, q) →
        storGet (erc721UpdatesOf L wa vmId s.bridgeTokens filt) a = some e →
        storGet s.erc721Balances a ≠ some e → q = true) := by
  refine ⟨?_, ?_, ?_, ?_⟩
  · intro s' pub h
    unfold updateEthBalances at h
    split at h
    · exact absurd h (by simp)
    dsimp only at h
    split at h
    case isTrue heq =>
      injection h with h
      rw [Prod.mk.injEq] at h
      obtain ⟨hs, hp⟩ := h
      refine ⟨⟨?_, ?_⟩, fun _ => hs.symm⟩
      · intro hpt
        rw [← hp] at hpt
        exact absurd hpt (by decide)
      · intro hne
        exact absurd heq.symm hne
    case isFalse hne =>
      injection h with h
      rw [Prod.mk.injEq] at h
      obtain ⟨hs, hp⟩ := h
      refine ⟨⟨fun _ hEq => hne hEq.symm, fun _ => hp.symm⟩, ?_⟩
      intro hpf
      exact absurd (hp.trans hpf) (by decide)
  · intro filt h20 h721
    unfold updateTokenBalances updateTokenBalancesWith
    rw [if_neg hwa]
    dsimp only
    rw [h20, h721]
    simp
  · intro filt a e s' p q h hup hdiff
    unfold updateTokenBalances updateTokenBalancesWith at h
    rw [if_neg hwa] at h
    dsimp only at h
    injection h with h
    rw [Prod.mk.injEq] at h
    obtain ⟨-, h⟩ := h
    rw [Prod.mk.injEq] at h
    obtain ⟨hp, -⟩ := h
    rw [← hp, storEq_eq_false_of_mismatch hup hdiff]
    rfl
  · intro filt a e s' p q h hup hdiff
    unfold updateTokenBalances updateTokenBalancesWith at h
    rw [if_neg hwa] at h
    dsimp only at h
    injection h with h
    rw [Prod.mk.injEq] at h
    obtain ⟨-, h⟩ := h
    rw [Prod.mk.injEq] at h
    obtain ⟨-, hq⟩ := h
    rw [← hq, storEq_eq_false_of_mismatch hup hdiff]
    rfl

/-- Witness: C3 amended at concrete inputs — the unfiltered refresh of
the settled state publishes nothing; the suppressed native refresh
reports no difference; and a refresh of a state missing the stored
`0xA` entry forces the fungible publish flag. -/
theorem refreshChangeGating_witness :
    updateTokenBalances Lfix "0xW" "0xV" none sfix = .ok (sfix, false, false)
  ∧ (false = true ↔ ethUpdateOf Lfix "0xW" "0xV" ≠ sfix.ethBalances)
  ∧ (true = true) := by
  obtain ⟨hn, h2, h3, h4⟩ := refreshChangeGating Lfix "0xW" "0xV" sfix (by decide)
  refine ⟨h2 none (by decide) (by decide), (hn sfix false (by decide)).1, ?_⟩
  exact (refreshChangeGating Lfix "0xW" "0xV"
      ({ sfix with erc20Balances := [] }) (by decide)).2.2.1
    none "0xA" entryA sfix true false (by decide) (by decide) (by decide)

end ArbTokenBridge
